import Mathlib

/-
  Verification development for the request-execution engine of the
  relatiocc/opencloud TypeScript SDK.

  The engine lives in src/http.ts (class HttpClient): it composes headers,
  runs the retry loop, classifies response statuses and constructs the typed
  errors of src/errors.ts.  The scoped-client derivation lives in
  src/index.ts (OpenCloud.withAuth).

  Modelling conventions:
  * statuses are naturals; all numeric computation is over the rationals;
  * a response body is modelled by whether its text is empty and by the
    result of JSON parsing (JSON.parse is a platform function, so a body is
    represented as: serialized JSON, empty text, or non-empty text that
    fails to parse);
  * the x-ratelimit-reset header is modelled as its parsed numeric value,
    with none when the header is absent or empty (both are falsy in the
    source check on the raw header string);
  * Math.random() draws are passed in explicitly as a jitter stream;
  * the network transport is a function from attempt index to response,
    matching the injectable fetch implementation of HttpOptions.
-/

namespace OC

/-- JSON values, the structured data of request and response bodies. -/
inductive Json where
  | null
  | bool (b : Bool)
  | num (q : ℚ)
  | str (s : String)
  | arr (elems : List Json)
  | obj (fields : List (String × Json))

/-- Member access details.code on a parsed JSON value: a lookup that yields a
value only on objects, mirroring optional chaining on the parsed body. -/
def Json.get? (j : Json) (key : String) : Option Json :=
  match j with
  | Json.obj fields => (fields.find? (fun p => p.1 = key)).map (fun p => p.2)
  | _ => none

/-- A response body as seen by the engine: the serialization of a JSON value
(non-empty text that parses back to it), empty text, or non-empty text that
is not valid JSON (JSON.parse would throw on it). -/
inductive Body where
  | ofJson (j : Json)
  | emptyText
  | malformed

/-- Truthiness of response.text(): false exactly for the empty string. -/
def Body.textEmpty : Body → Bool
  | Body.emptyText => true
  | _ => false

/-- Result of JSON.parse on the body text; none when parsing throws
(empty text is not valid JSON either). -/
def Body.parse? : Body → Option Json
  | Body.ofJson j => some j
  | _ => none

/-- The view of one transport response used by HttpClient.request:
integer status, the x-ratelimit-reset header (parsed numeric value, none if
absent or empty), and the body. -/
structure Response where
  status : ℕ
  xRatelimitReset : Option ℚ
  body : Body

/-- Which error class was constructed (instanceof distinction between
OpenCloudError, RateLimitError and AuthError of src/errors.ts). -/
inductive ErrClass where
  | base
  | rateLimit
  | auth

/-- The observable fields of the typed errors of src/errors.ts. -/
structure OCError where
  cls : ErrClass
  message : String
  status : Option ℕ
  code : Option Json
  details : Option Json
  retryAfter : Option ℚ

/-- Constructor of OpenCloudError (src/errors.ts lines 5-26). -/
def mkOpenCloudError (message : String) (status : Option ℕ) (code : Option Json)
    (details : Option Json) : OCError :=
  ⟨ErrClass.base, message, status, code, details, none⟩

/-- Constructor of RateLimitError (src/errors.ts lines 32-51): fixed status
429 and fixed machine code rate_limited, plus the optional retryAfter hint.
The message is the one the engine passes at its only call site. -/
def mkRateLimitError (retryAfter : Option ℚ) (details : Option Json) : OCError :=
  ⟨ErrClass.rateLimit, "Rate limit exceeded", some 429, some (Json.str "rate_limited"),
    details, retryAfter⟩

/-- Constructor of AuthError (src/errors.ts lines 57-72): fixed machine code
unauthorized; the engine passes the actual response status (401 or 403). -/
def mkAuthError (status : ℕ) (details : Option Json) : OCError :=
  ⟨ErrClass.auth, "Unauthorized: invalid or missing Open Cloud credentials",
    some status, some (Json.str "unauthorized"), details, none⟩

/-- parseErrorDetails (src/http.ts lines 37-45): response.json() with the
failure swallowed into undefined. -/
def parseErrorDetails (r : Response) : Option Json :=
  r.body.parse?

/-- The generic terminal error raised inside the loop (src/http.ts lines
152-158): message HTTP status, the response status, the code field extracted
from the parsed details when present, and the details themselves. -/
def mkGenericError (r : Response) : OCError :=
  let details := parseErrorDetails r
  mkOpenCloudError ("HTTP " ++ toString r.status) (some r.status)
    (details.bind (fun j => j.get? "code")) details

/-- Backoff strategy tag (src/http.ts line 3). -/
inductive Backoff where
  | exponential
  | fixed

/-- HttpRetry configuration (src/http.ts lines 8-15). -/
structure HttpRetry where
  attempts : ℕ
  backoff : Backoff
  baseMs : Option ℕ

/-- Math.round: round half toward positive infinity. -/
def jsRound (q : ℚ) : ℤ := ⌊q + 1/2⌋

/-- nextBackoff (src/http.ts lines 76-82): fixed strategy returns the base
delay; exponential doubles per attempt and applies a jitter factor
0.75 + random * 0.5 with random drawn from the unit interval, rounded to the
nearest integer millisecond. -/
def nextBackoff (attempt : ℕ) (retry : HttpRetry) (jitter : ℚ) : ℚ :=
  let base : ℚ := (retry.baseMs.getD 250 : ℕ)
  match retry.backoff with
  | Backoff.fixed => base
  | Backoff.exponential => ((jsRound (base * 2 ^ attempt * (3/4 + jitter * (1/2)))) : ℚ)

/-- The wait before the retry following a retryable response at a given
attempt (src/http.ts lines 133-136): the reset header in milliseconds when
present, else the computed backoff. -/
def waitFor (transport : ℕ → Response) (retry : HttpRetry) (jitter : ℕ → ℚ)
    (attempt : ℕ) : ℚ :=
  match (transport attempt).xRatelimitReset with
  | some q => q * 1000
  | none => nextBackoff attempt retry (jitter attempt)

/-- How one call to HttpClient.request ends: a returned payload (none for an
empty or 204 payload, mirroring undefined), a raised typed error, or an
unguarded JSON.parse exception on a malformed success body. -/
inductive Outcome where
  | ok (payload : Option Json)
  | err (e : OCError)
  | crash

/-- Observable result of one call to HttpClient.request: the outcome, the
number of transport invocations, and the sleep durations in order. -/
structure RunResult where
  outcome : Outcome
  calls : ℕ
  waits : List ℚ

/-- One execution of the attempt loop body and its continuation
(src/http.ts lines 113-159), fuelled by the number of loop iterations still
permitted by the loop bound attempt less-or-equal retry.attempts; none means
the loop bound was crossed without returning or raising, which sends control
to the fallback after the loop.  The branch order and conditions mirror the
source: 401/403 first, then response.ok (2xx), then the retryable class 429
or at-least-500 with the retry guard attempt < retry.attempts, then the
shared generic-error path. -/
def requestIter (transport : ℕ → Response) (retry : HttpRetry) (jitter : ℕ → ℚ) :
    ℕ → ℕ → Option RunResult
  | _, 0 => none
  | attempt, iters + 1 =>
    let r := transport attempt
    if r.status = 401 ∨ r.status = 403 then
      some ⟨Outcome.err (mkAuthError r.status (parseErrorDetails r)), 1, []⟩
    else if 200 ≤ r.status ∧ r.status < 300 then
      if r.status = 204 then
        some ⟨Outcome.ok none, 1, []⟩
      else if r.body.textEmpty then
        some ⟨Outcome.ok none, 1, []⟩
      else
        match r.body.parse? with
        | some j => some ⟨Outcome.ok (some j), 1, []⟩
        | none => some ⟨Outcome.crash, 1, []⟩
    else if r.status = 429 ∨ 500 ≤ r.status then
      if attempt < retry.attempts then
        match requestIter transport retry jitter (attempt + 1) iters with
        | some res =>
            some ⟨res.outcome, res.calls + 1,
              waitFor transport retry jitter attempt :: res.waits⟩
        | none => none
      else if r.status = 429 then
        some ⟨Outcome.err (mkRateLimitError r.xRatelimitReset (parseErrorDetails r)), 1, []⟩
      else
        some ⟨Outcome.err (mkGenericError r), 1, []⟩
    else
      some ⟨Outcome.err (mkGenericError r), 1, []⟩

/-- The default retry policy of src/http.ts lines 99-103. -/
def defaultRetry : HttpRetry :=
  ⟨4, Backoff.exponential, some 250⟩

/-- The defensive error after the loop (src/http.ts line 161). -/
def exhaustedFallback : OCError :=
  mkOpenCloudError "Exhausted retries without a successful response" none none none

/-- The whole retry loop of HttpClient.request for a given policy: the loop
runs attempts + 1 iterations at most; if it completes without an exit the
fallback error is raised. -/
def requestRun (transport : ℕ → Response) (retry : HttpRetry) (jitter : ℕ → ℚ) :
    RunResult :=
  match requestIter transport retry jitter 0 (retry.attempts + 1) with
  | some res => res
  | none => ⟨Outcome.err exhaustedFallback, retry.attempts + 1, []⟩

/-- HTTP client configuration (src/http.ts lines 20-29); the fetch
implementation is the transport parameter of the run functions. -/
structure HttpOptions where
  baseUrl : String
  headers : List (String × String)
  retry : Option HttpRetry

/-- HttpClient.request (src/http.ts lines 95-162) restricted to its
retry/status behavior: the policy is options.retry with the documented
default. -/
def HttpClient.request (options : HttpOptions) (transport : ℕ → Response)
    (jitter : ℕ → ℚ) : RunResult :=
  requestRun transport (options.retry.getD defaultRetry) jitter

/-! Engine lemmas. -/

theorem requestIter_calls_le (transport : ℕ → Response) (retry : HttpRetry)
    (jitter : ℕ → ℚ) :
    ∀ iters attempt res,
      requestIter transport retry jitter attempt iters = some res → res.calls ≤ iters := by
  intro iters
  induction iters with
  | zero =>
    intro attempt res h
    simp [requestIter] at h
  | succ n ih =>
    intro attempt res h
    simp only [requestIter] at h
    split at h
    · cases h
      exact Nat.succ_le_succ (Nat.zero_le n)
    · split at h
      · split at h
        · cases h
          exact Nat.succ_le_succ (Nat.zero_le n)
        · split at h
          · cases h
            exact Nat.succ_le_succ (Nat.zero_le n)
          · split at h
            · cases h
              exact Nat.succ_le_succ (Nat.zero_le n)
            · cases h
              exact Nat.succ_le_succ (Nat.zero_le n)
      · split at h
        · split at h
          · split at h
            · cases h
              exact Nat.succ_le_succ (ih _ _ (by assumption))
            · exact absurd h (by simp)
          · split at h
            · cases h
              exact Nat.succ_le_succ (Nat.zero_le n)
            · cases h
              exact Nat.succ_le_succ (Nat.zero_le n)
        · cases h
          exact Nat.succ_le_succ (Nat.zero_le n)

theorem requestIter_exists (transport : ℕ → Response) (retry : HttpRetry)
    (jitter : ℕ → ℚ) :
    ∀ iters attempt, attempt + iters = retry.attempts + 1 → 0 < iters →
      ∃ res, requestIter transport retry jitter attempt iters = some res := by
  intro iters
  induction iters with
  | zero =>
    intro attempt _ hpos
    exact absurd hpos (by omega)
  | succ n ih =>
    intro attempt harith _
    simp only [requestIter]
    split
    · exact ⟨_, rfl⟩
    · split
      · split
        · exact ⟨_, rfl⟩
        · split
          · exact ⟨_, rfl⟩
          · split
            · exact ⟨_, rfl⟩
            · exact ⟨_, rfl⟩
      · split
        · split
          · obtain ⟨res2, h2⟩ := ih (attempt + 1) (by omega) (by omega)
            rw [h2]
            exact ⟨_, rfl⟩
          · split
            · exact ⟨_, rfl⟩
            · exact ⟨_, rfl⟩
        · exact ⟨_, rfl⟩

theorem requestIter_err_status (transport : ℕ → Response) (retry : HttpRetry)
    (jitter : ℕ → ℚ) :
    ∀ iters attempt res e,
      requestIter transport retry jitter attempt iters = some res →
      res.outcome = Outcome.err e → e.status.isSome = true := by
  intro iters
  induction iters with
  | zero =>
    intro attempt res e h _
    simp [requestIter] at h
  | succ n ih =>
    intro attempt res e h houtcome
    simp only [requestIter] at h
    split at h
    · cases h
      cases houtcome
      rfl
    · split at h
      · split at h
        · cases h
          exact absurd houtcome (by simp)
        · split at h
          · cases h
            exact absurd houtcome (by simp)
          · split at h
            · cases h
              exact absurd houtcome (by simp)
            · cases h
              exact absurd houtcome (by simp)
      · split at h
        · split at h
          · split at h
            · rename_i res2 heq
              cases h
              exact ih _ _ _ heq houtcome
            · exact absurd h (by simp)
          · split at h
            · cases h
              cases houtcome
              rfl
            · cases h
              cases houtcome
              rfl
        · cases h
          cases houtcome
          rfl

theorem requestIter_succ (transport : ℕ → Response) (retry : HttpRetry)
    (jitter : ℕ → ℚ) (attempt iters : ℕ) :
    requestIter transport retry jitter attempt (iters + 1) =
      (let r := transport attempt
      if r.status = 401 ∨ r.status = 403 then
        some ⟨Outcome.err (mkAuthError r.status (parseErrorDetails r)), 1, []⟩
      else if 200 ≤ r.status ∧ r.status < 300 then
        if r.status = 204 then
          some ⟨Outcome.ok none, 1, []⟩
        else if r.body.textEmpty then
          some ⟨Outcome.ok none, 1, []⟩
        else
          match r.body.parse? with
          | some j => some ⟨Outcome.ok (some j), 1, []⟩
          | none => some ⟨Outcome.crash, 1, []⟩
      else if r.status = 429 ∨ 500 ≤ r.status then
        if attempt < retry.attempts then
          match requestIter transport retry jitter (attempt + 1) iters with
          | some res =>
              some ⟨res.outcome, res.calls + 1,
                waitFor transport retry jitter attempt :: res.waits⟩
          | none => none
        else if r.status = 429 then
          some ⟨Outcome.err (mkRateLimitError r.xRatelimitReset (parseErrorDetails r)), 1, []⟩
        else
          some ⟨Outcome.err (mkGenericError r), 1, []⟩
      else
        some ⟨Outcome.err (mkGenericError r), 1, []⟩) := rfl

theorem requestIter_always500 (transport : ℕ → Response) (retry : HttpRetry)
    (jitter : ℕ → ℚ) (h500 : ∀ i, (transport i).status = 500) :
    ∀ iters attempt, attempt + iters = retry.attempts →
      ∃ w, requestIter transport retry jitter attempt (iters + 1) =
        some ⟨Outcome.err (mkGenericError (transport retry.attempts)), iters + 1, w⟩ := by
  intro iters
  induction iters with
  | zero =>
    intro attempt harith
    have heq : attempt = retry.attempts := by omega
    subst heq
    exact ⟨[], by simp [requestIter_succ, h500]⟩
  | succ n ih =>
    intro attempt harith
    have hlt : attempt < retry.attempts := by omega
    obtain ⟨w, hw⟩ := ih (attempt + 1) (by omega)
    refine ⟨waitFor transport retry jitter attempt :: w, ?_⟩
    rw [requestIter_succ, hw]
    simp [h500, hlt]

/-! Claim theorems about the retry loop. -/

/-- C2: for every retry policy with attempts = N and every transport that
returns status 500 on every call, request invokes the transport exactly
N + 1 times and then raises the terminal generic typed error; and for every
transport whatsoever the number of invocations never exceeds attempts + 1. -/
theorem request_always500_invocations (u : String) (hs : List (String × String))
    (retry : HttpRetry) (transport : ℕ → Response) (jitter : ℕ → ℚ)
    (h500 : ∀ i, (transport i).status = 500) :
    (HttpClient.request ⟨u, hs, some retry⟩ transport jitter).calls = retry.attempts + 1 ∧
    (HttpClient.request ⟨u, hs, some retry⟩ transport jitter).outcome =
      Outcome.err (mkGenericError (transport retry.attempts)) ∧
    ∀ (t2 : ℕ → Response) (j2 : ℕ → ℚ),
      (HttpClient.request ⟨u, hs, some retry⟩ t2 j2).calls ≤ retry.attempts + 1 := by
  obtain ⟨w, hw⟩ :=
    requestIter_always500 transport retry jitter h500 retry.attempts 0 (by omega)
  refine ⟨?_, ?_, ?_⟩
  · simp [HttpClient.request, requestRun, hw]
  · simp [HttpClient.request, requestRun, hw]
  · intro t2 j2
    simp only [HttpClient.request, Option.getD_some, requestRun]
    cases hres : requestIter t2 retry j2 0 (retry.attempts + 1) with
    | some res => simpa using requestIter_calls_le t2 retry j2 _ _ _ hres
    | none => simp

/-- Witness for C2: with attempts = 2 and a constant 500 transport, request
makes exactly 3 transport invocations. -/
theorem request_always500_invocations_witness :
    (∀ i, ((fun (_ : ℕ) => Response.mk 500 none Body.emptyText) i).status = 500) ∧
    (HttpClient.request ⟨"https://apis.roblox.com", [], some ⟨2, Backoff.fixed, some 0⟩⟩
        (fun _ => Response.mk 500 none Body.emptyText) (fun _ => 0)).calls = 2 + 1 := by
  refine ⟨fun i => rfl, ?_⟩
  exact (request_always500_invocations "https://apis.roblox.com" []
    ⟨2, Backoff.fixed, some 0⟩ (fun _ => Response.mk 500 none Body.emptyText)
    (fun _ => 0) (fun i => rfl)).1

/-- C3: a 401 or 403 response on the first attempt makes request raise the
Auth error immediately, after exactly one transport invocation and with no
waits, whatever the retry policy; the error status equals the response
status, and when the body does not parse as structured data the details
field is absent. -/
theorem request_auth_first_attempt (u : String) (hs : List (String × String))
    (retry : HttpRetry) (transport : ℕ → Response) (jitter : ℕ → ℚ)
    (hauth : (transport 0).status = 401 ∨ (transport 0).status = 403) :
    HttpClient.request ⟨u, hs, some retry⟩ transport jitter =
      ⟨Outcome.err (mkAuthError (transport 0).status (parseErrorDetails (transport 0))), 1, []⟩ ∧
    (mkAuthError (transport 0).status (parseErrorDetails (transport 0))).status =
      some (transport 0).status ∧
    ((transport 0).body.parse? = none →
      (mkAuthError (transport 0).status (parseErrorDetails (transport 0))).details = none) := by
  refine ⟨?_, rfl, fun hp => by simp [mkAuthError, parseErrorDetails, hp]⟩
  rcases hauth with h1 | h1 <;>
    simp [HttpClient.request, requestRun, requestIter_succ, h1]

/-- Witness for C3: a 403 with an unparseable body raises the Auth error on
the very first attempt although the policy has 4 retry attempts. -/
theorem request_auth_first_attempt_witness :
    (((fun (_ : ℕ) => Response.mk 403 none Body.malformed) 0).status = 401 ∨
      ((fun (_ : ℕ) => Response.mk 403 none Body.malformed) 0).status = 403) ∧
    HttpClient.request ⟨"", [], some ⟨4, Backoff.exponential, some 250⟩⟩
        (fun _ => Response.mk 403 none Body.malformed) (fun _ => 0) =
      ⟨Outcome.err (mkAuthError 403 none), 1, []⟩ := by
  refine ⟨Or.inr rfl, ?_⟩
  exact (request_auth_first_attempt "" [] ⟨4, Backoff.exponential, some 250⟩
    (fun _ => Response.mk 403 none Body.malformed) (fun _ => 0) (Or.inr rfl)).1

/-- A crash outcome can only come from a non-204 2xx response whose
non-empty body fails to parse: the only unguarded parse site of the loop. -/
theorem requestIter_crash_source (transport : ℕ → Response) (retry : HttpRetry)
    (jitter : ℕ → ℚ) :
    ∀ iters attempt res,
      requestIter transport retry jitter attempt iters = some res →
      res.outcome = Outcome.crash →
      ∃ i, attempt ≤ i ∧ i < attempt + iters ∧
        200 ≤ (transport i).status ∧ (transport i).status < 300 ∧
        (transport i).status ≠ 204 ∧ (transport i).body.textEmpty = false ∧
        (transport i).body.parse? = none := by
  intro iters
  induction iters with
  | zero =>
    intro attempt res h _
    simp [requestIter] at h
  | succ n ih =>
    intro attempt res h houtcome
    simp only [requestIter] at h
    split at h
    · cases h
      exact absurd houtcome (by simp)
    · split at h
      · split at h
        · cases h
          exact absurd houtcome (by simp)
        · split at h
          · cases h
            exact absurd houtcome (by simp)
          · split at h
            · cases h
              exact absurd houtcome (by simp)
            · rename_i h2xx h204 hempty hx hparse
              cases h
              refine ⟨attempt, Nat.le_refl attempt, by omega, h2xx.1, h2xx.2, h204,
                ?_, hparse⟩
              simpa using hempty
      · split at h
        · split at h
          · split at h
            · rename_i res2 heq
              cases h
              obtain ⟨i, hi1, hi2, rest⟩ := ih _ _ heq houtcome
              exact ⟨i, by omega, by omega, rest⟩
            · exact absurd h (by simp)
          · split at h
            · cases h
              exact absurd houtcome (by simp)
            · cases h
              exact absurd houtcome (by simp)
        · cases h
          exact absurd houtcome (by simp)

/-- C8 as frozen is refuted: a 200 response whose non-empty body is not
valid JSON makes request terminate neither by returning a payload nor by
raising a typed error; the loop surfaces the untyped JSON.parse failure
instead. -/
theorem request_untyped_crash_exists :
    (∀ p, (HttpClient.request ⟨"", [], some ⟨3, Backoff.fixed, some 0⟩⟩
        (fun _ => Response.mk 200 none Body.malformed) (fun _ => 0)).outcome ≠
      Outcome.ok p) ∧
    ∀ e, (HttpClient.request ⟨"", [], some ⟨3, Backoff.fixed, some 0⟩⟩
        (fun _ => Response.mk 200 none Body.malformed) (fun _ => 0)).outcome ≠
      Outcome.err e := by
  constructor
  · intro p hp
    have h2 : Outcome.crash = Outcome.ok p := hp
    exact Outcome.noConfusion h2
  · intro e he
    have h2 : Outcome.crash = Outcome.err e := he
    exact Outcome.noConfusion h2

/-- C8 amended: for every retry policy and transport sequence, request
terminates with the result produced inside the attempt loop, so the
post-loop fallback error, the only engine error carrying no status, is
never the outcome; that loop result is a returned payload or a raised
typed error, except that a non-204 2xx response whose non-empty body fails
to parse surfaces the unguarded parse failure. -/
theorem request_loop_exit_classified (u : String) (hs : List (String × String))
    (retry : HttpRetry) (transport : ℕ → Response) (jitter : ℕ → ℚ) :
    ∃ res, requestIter transport retry jitter 0 (retry.attempts + 1) = some res ∧
      HttpClient.request ⟨u, hs, some retry⟩ transport jitter = res ∧
      (∀ e, res.outcome = Outcome.err e → e.status.isSome = true) ∧
      exhaustedFallback.status.isSome = false ∧
      (res.outcome = Outcome.crash →
        ∃ i, i ≤ retry.attempts ∧ 200 ≤ (transport i).status ∧
          (transport i).status < 300 ∧ (transport i).status ≠ 204 ∧
          (transport i).body.textEmpty = false ∧ (transport i).body.parse? = none) := by
  obtain ⟨res, hres⟩ :=
    requestIter_exists transport retry jitter (retry.attempts + 1) 0 (by omega) (by omega)
  refine ⟨res, hres, by simp [HttpClient.request, requestRun, hres],
    fun e he => requestIter_err_status transport retry jitter _ _ _ _ hres he, rfl, ?_⟩
  intro hcrash
  obtain ⟨i, hi1, hi2, rest⟩ :=
    requestIter_crash_source transport retry jitter _ _ _ hres hcrash
  exact ⟨i, by omega, rest⟩

/-- C10: a response whose status is neither 2xx, nor 401, 403 or 429, nor at
least 500 (so in particular every 1xx and 3xx status) raises the generic
base error after exactly one transport invocation, carrying the status, the
message HTTP status, and the machine code extracted from the parsed details
when the body parses as structured data containing one. -/
theorem request_other_status_generic (u : String) (hs : List (String × String))
    (retry : HttpRetry) (transport : ℕ → Response) (jitter : ℕ → ℚ)
    (hnot2xx : ¬(200 ≤ (transport 0).status ∧ (transport 0).status < 300))
    (h401 : (transport 0).status ≠ 401) (h403 : (transport 0).status ≠ 403)
    (h429 : (transport 0).status ≠ 429) (h5xx : (transport 0).status < 500) :
    HttpClient.request ⟨u, hs, some retry⟩ transport jitter =
      ⟨Outcome.err (mkGenericError (transport 0)), 1, []⟩ ∧
    (mkGenericError (transport 0)).message = "HTTP " ++ toString (transport 0).status ∧
    (mkGenericError (transport 0)).status = some (transport 0).status ∧
    (mkGenericError (transport 0)).code =
      (parseErrorDetails (transport 0)).bind (fun j => j.get? "code") := by
  refine ⟨?_, rfl, rfl, rfl⟩
  have hcond1 : ¬((transport 0).status = 401 ∨ (transport 0).status = 403) := by tauto
  have hcond3 : ¬((transport 0).status = 429 ∨ 500 ≤ (transport 0).status) := by omega
  simp [HttpClient.request, requestRun, requestIter_succ, hcond1, hnot2xx, hcond3]

/-- Witness for C10: a 302 whose body carries a code field yields the
generic error with status 302, message HTTP 302 and that code. -/
theorem request_other_status_generic_witness :
    (¬(200 ≤ 302 ∧ 302 < 300) ∧ 302 ≠ 401 ∧ 302 ≠ 403 ∧ 302 ≠ 429 ∧ 302 < 500) ∧
    HttpClient.request ⟨"", [], some ⟨4, Backoff.exponential, some 250⟩⟩
        (fun _ => Response.mk 302 none (Body.ofJson (Json.obj [("code", Json.str "redirected")])))
        (fun _ => 0) =
      ⟨Outcome.err (mkOpenCloudError "HTTP 302" (some 302) (some (Json.str "redirected"))
        (some (Json.obj [("code", Json.str "redirected")]))), 1, []⟩ := by
  refine ⟨by omega, ?_⟩
  have h := (request_other_status_generic "" [] ⟨4, Backoff.exponential, some 250⟩
    (fun _ => Response.mk 302 none (Body.ofJson (Json.obj [("code", Json.str "redirected")])))
    (fun _ => 0) (by decide) (by decide) (by decide) (by decide) (by decide)).1
  exact h.trans (by rfl)

/-- C5 as frozen is refuted: a 200 response whose non-empty body is not
valid JSON does not make request return; it surfaces the unguarded
JSON.parse failure. -/
theorem request_2xx_malformed_crashes :
    (HttpClient.request ⟨"", [], some ⟨4, Backoff.exponential, some 250⟩⟩
        (fun _ => Response.mk 200 none Body.malformed) (fun _ => 0)).outcome =
      Outcome.crash ∧
    ∀ p, (HttpClient.request ⟨"", [], some ⟨4, Backoff.exponential, some 250⟩⟩
        (fun _ => Response.mk 200 none Body.malformed) (fun _ => 0)).outcome ≠
      Outcome.ok p := by
  refine ⟨rfl, fun p h => ?_⟩
  have hcrash : Outcome.crash = Outcome.ok p := h
  exact Outcome.noConfusion hcrash

/-- C5 amended: a 2xx response yields exactly one transport invocation; a
204 returns the empty payload regardless of body content; an empty body
returns the empty payload; a body that parses as structured data is
returned parsed; and a non-empty 2xx body that fails to parse raises the
unguarded parse failure instead of returning. -/
theorem request_2xx_success (u : String) (hs : List (String × String))
    (retry : HttpRetry) (transport : ℕ → Response) (jitter : ℕ → ℚ)
    (h2xx : 200 ≤ (transport 0).status ∧ (transport 0).status < 300) :
    (HttpClient.request ⟨u, hs, some retry⟩ transport jitter).calls = 1 ∧
    ((transport 0).status = 204 →
      HttpClient.request ⟨u, hs, some retry⟩ transport jitter = ⟨Outcome.ok none, 1, []⟩) ∧
    ((transport 0).status ≠ 204 → (transport 0).body = Body.emptyText →
      HttpClient.request ⟨u, hs, some retry⟩ transport jitter = ⟨Outcome.ok none, 1, []⟩) ∧
    (∀ j, (transport 0).status ≠ 204 → (transport 0).body = Body.ofJson j →
      HttpClient.request ⟨u, hs, some retry⟩ transport jitter = ⟨Outcome.ok (some j), 1, []⟩) ∧
    ((transport 0).status ≠ 204 → (transport 0).body = Body.malformed →
      (HttpClient.request ⟨u, hs, some retry⟩ transport jitter).outcome = Outcome.crash) := by
  obtain ⟨hlo, hhi⟩ := h2xx
  have hcond1 : ¬((transport 0).status = 401 ∨ (transport 0).status = 403) := by omega
  refine ⟨?_, ?_, ?_, ?_, ?_⟩
  · by_cases h204 : (transport 0).status = 204
    · simp [HttpClient.request, requestRun, requestIter_succ, hcond1, h204, hlo, hhi]
    · cases hbody : (transport 0).body <;>
        simp [HttpClient.request, requestRun, requestIter_succ, hcond1, h204, hlo, hhi,
          hbody, Body.textEmpty, Body.parse?]
  · intro h204
    simp [HttpClient.request, requestRun, requestIter_succ, hcond1, h204, hlo, hhi]
  · intro h204 hbody
    simp [HttpClient.request, requestRun, requestIter_succ, hcond1, h204, hlo, hhi,
      hbody, Body.textEmpty]
  · intro j h204 hbody
    simp [HttpClient.request, requestRun, requestIter_succ, hcond1, h204, hlo, hhi,
      hbody, Body.textEmpty, Body.parse?]
  · intro h204 hbody
    simp [HttpClient.request, requestRun, requestIter_succ, hcond1, h204, hlo, hhi,
      hbody, Body.textEmpty, Body.parse?]

/-- Reaching the final attempt: when every attempt before the last yields a
retryable status, the run is the final-attempt result with one extra call
and one recorded wait per earlier attempt. -/
theorem requestIter_reach (transport : ℕ → Response) (retry : HttpRetry) (jitter : ℕ → ℚ)
    (hpre : ∀ i, i < retry.attempts →
      (transport i).status = 429 ∨ 500 ≤ (transport i).status) :
    ∀ iters attempt res0, attempt + iters = retry.attempts →
      requestIter transport retry jitter retry.attempts 1 = some res0 →
      requestIter transport retry jitter attempt (iters + 1) =
        some ⟨res0.outcome, res0.calls + iters,
          (List.range iters).map (fun d => waitFor transport retry jitter (attempt + d))
            ++ res0.waits⟩ := by
  intro iters
  induction iters with
  | zero =>
    intro attempt res0 harith h0
    have heq : attempt = retry.attempts := by omega
    subst heq
    rw [h0]
    simp
  | succ n ih =>
    intro attempt res0 harith h0
    have hlt : attempt < retry.attempts := by omega
    have hretry := hpre attempt hlt
    have hnotauth : ¬((transport attempt).status = 401 ∨ (transport attempt).status = 403) := by
      rcases hretry with h | h <;> omega
    have hnot2xx : ¬(200 ≤ (transport attempt).status ∧ (transport attempt).status < 300) := by
      rcases hretry with h | h <;> omega
    have hrec := ih (attempt + 1) res0 (by omega) h0
    rw [requestIter_succ, hrec]
    simp only [if_neg hnotauth, if_neg hnot2xx, if_pos hretry, if_pos hlt]
    rw [List.range_succ_eq_map, List.map_cons, List.map_map]
    have hfun : ((fun d => waitFor transport retry jitter (attempt + d)) ∘ Nat.succ)
        = fun d => waitFor transport retry jitter (attempt + 1 + d) := by
      funext d
      simp only [Function.comp]
      congr 1
      omega
    rw [hfun]
    simp
    omega

/-- The final attempt on a 429 raises the rate-limit error. -/
theorem requestIter_last429 (transport : ℕ → Response) (retry : HttpRetry) (jitter : ℕ → ℚ)
    (h429 : (transport retry.attempts).status = 429) :
    requestIter transport retry jitter retry.attempts 1 =
      some ⟨Outcome.err (mkRateLimitError (transport retry.attempts).xRatelimitReset
        (parseErrorDetails (transport retry.attempts))), 1, []⟩ := by
  simp [requestIter_succ, h429]

/-- C4: when every earlier attempt is retryable and the last attempt (index
attempts) answers 429, request raises the rate-limit error: status 429,
fixed machine code rate_limited, and retry-after equal to the numeric value
of the reset-seconds header when present and absent otherwise. -/
theorem request_rate_limit_last_attempt (u : String) (hs : List (String × String))
    (retry : HttpRetry) (transport : ℕ → Response) (jitter : ℕ → ℚ)
    (hpre : ∀ i, i < retry.attempts →
      (transport i).status = 429 ∨ 500 ≤ (transport i).status)
    (hlast : (transport retry.attempts).status = 429) :
    (HttpClient.request ⟨u, hs, some retry⟩ transport jitter).calls = retry.attempts + 1 ∧
    (HttpClient.request ⟨u, hs, some retry⟩ transport jitter).outcome =
      Outcome.err (mkRateLimitError (transport retry.attempts).xRatelimitReset
        (parseErrorDetails (transport retry.attempts))) ∧
    (mkRateLimitError (transport retry.attempts).xRatelimitReset
      (parseErrorDetails (transport retry.attempts))).status = some 429 ∧
    (mkRateLimitError (transport retry.attempts).xRatelimitReset
      (parseErrorDetails (transport retry.attempts))).code = some (Json.str "rate_limited") ∧
    (mkRateLimitError (transport retry.attempts).xRatelimitReset
      (parseErrorDetails (transport retry.attempts))).retryAfter =
      (transport retry.attempts).xRatelimitReset := by
  have h0 := requestIter_last429 transport retry jitter hlast
  have h := requestIter_reach transport retry jitter hpre retry.attempts 0 _
    (Nat.zero_add retry.attempts) h0
  refine ⟨?_, ?_, rfl, rfl, rfl⟩
  · simp [HttpClient.request, requestRun, h]
    omega
  · simp [HttpClient.request, requestRun, h]

/-- Witness for C4: attempts = 1, both attempts answer 429 with a reset
header of 5 seconds; request makes 2 invocations and raises the rate-limit
error with retry-after 5. -/
theorem request_rate_limit_last_attempt_witness :
    (∀ i, i < 1 → ((fun (_ : ℕ) => Response.mk 429 (some 5) Body.emptyText) i).status = 429 ∨
        500 ≤ ((fun (_ : ℕ) => Response.mk 429 (some 5) Body.emptyText) i).status) ∧
    (HttpClient.request ⟨"", [], some ⟨1, Backoff.fixed, some 0⟩⟩
        (fun _ => Response.mk 429 (some 5) Body.emptyText) (fun _ => 0)).calls = 1 + 1 ∧
    (HttpClient.request ⟨"", [], some ⟨1, Backoff.fixed, some 0⟩⟩
        (fun _ => Response.mk 429 (some 5) Body.emptyText) (fun _ => 0)).outcome =
      Outcome.err (mkRateLimitError (some 5) none) := by
  refine ⟨fun i _ => Or.inl rfl, ?_, ?_⟩
  · exact (request_rate_limit_last_attempt "" [] ⟨1, Backoff.fixed, some 0⟩
      (fun _ => Response.mk 429 (some 5) Body.emptyText) (fun _ => 0)
      (fun i _ => Or.inl rfl) rfl).1
  · exact (request_rate_limit_last_attempt "" [] ⟨1, Backoff.fixed, some 0⟩
      (fun _ => Response.mk 429 (some 5) Body.emptyText) (fun _ => 0)
      (fun i _ => Or.inl rfl) rfl).2.1

/-- Every wait recorded for the first m attempts is the documented one, as
long as those attempts are retryable with retries remaining. -/
theorem requestIter_wait_prefix (transport : ℕ → Response) (retry : HttpRetry)
    (jitter : ℕ → ℚ) :
    ∀ m attempt iters, attempt + iters = retry.attempts + 1 → 0 < iters →
      (∀ k, k < m → attempt + k < retry.attempts ∧
        ((transport (attempt + k)).status = 429 ∨ 500 ≤ (transport (attempt + k)).status)) →
      ∃ res, requestIter transport retry jitter attempt iters = some res ∧
        ∀ d, d < m → res.waits.get? d = some (waitFor transport retry jitter (attempt + d)) := by
  intro m
  induction m with
  | zero =>
    intro attempt iters harith hpos _
    obtain ⟨res, hres⟩ :=
      requestIter_exists transport retry jitter iters attempt harith hpos
    exact ⟨res, hres, fun d hd => absurd hd (by omega)⟩
  | succ n ih =>
    intro attempt iters harith hpos hpre
    have h00 := hpre 0 (by omega)
    rw [Nat.add_zero] at h00
    obtain ⟨hlt, hretry⟩ := h00
    have hnotauth : ¬((transport attempt).status = 401 ∨ (transport attempt).status = 403) := by
      rcases hretry with h | h <;> omega
    have hnot2xx : ¬(200 ≤ (transport attempt).status ∧ (transport attempt).status < 300) := by
      rcases hretry with h | h <;> omega
    cases iters with
    | zero => omega
    | succ it2 =>
      have hpre2 : ∀ k, k < n → (attempt + 1) + k < retry.attempts ∧
          ((transport ((attempt + 1) + k)).status = 429 ∨
            500 ≤ (transport ((attempt + 1) + k)).status) := by
        intro k hk
        have hk2 := hpre (k + 1) (by omega)
        rw [show attempt + (k + 1) = attempt + 1 + k by omega] at hk2
        exact hk2
      obtain ⟨res1, hres1, hws⟩ := ih (attempt + 1) it2 (by omega) (by omega) hpre2
      refine ⟨⟨res1.outcome, res1.calls + 1,
        waitFor transport retry jitter attempt :: res1.waits⟩, ?_, ?_⟩
      · simp only [requestIter_succ]
        rw [if_neg hnotauth, if_neg hnot2xx, if_pos hretry, if_pos hlt, hres1]
      · intro d hd
        cases d with
        | zero => simp
        | succ d2 =>
          have := hws d2 (by omega)
          rw [show attempt + (d2 + 1) = attempt + 1 + d2 by omega]
          simpa using this

/-- C6: if every attempt up to index i is retryable and retries remain at i,
the wait recorded after attempt i is the reset header converted to
milliseconds when that header is present, and the computed backoff for
attempt i otherwise. -/
theorem request_retry_wait (u : String) (hs : List (String × String))
    (retry : HttpRetry) (transport : ℕ → Response) (jitter : ℕ → ℚ) (i : ℕ)
    (hi : i < retry.attempts)
    (hret : ∀ k, k ≤ i → (transport k).status = 429 ∨ 500 ≤ (transport k).status) :
    (HttpClient.request ⟨u, hs, some retry⟩ transport jitter).waits.get? i =
      some (waitFor transport retry jitter i) ∧
    waitFor transport retry jitter i =
      (match (transport i).xRatelimitReset with
        | some q => q * 1000
        | none => nextBackoff i retry (jitter i)) := by
  obtain ⟨res, hres, hws⟩ := requestIter_wait_prefix transport retry jitter (i + 1) 0
    (retry.attempts + 1) (by omega) (by omega)
    (fun k hk => ⟨by omega, by simpa using hret k (by omega)⟩)
  refine ⟨?_, rfl⟩
  have hgoal := hws i (by omega)
  rw [Nat.zero_add] at hgoal
  simpa [HttpClient.request, requestRun, hres] using hgoal

/-- Witness for C6: with a 429 carrying a reset header of 5 seconds on
attempt 0 and one retry remaining, the recorded wait is 5000 ms even though
the fixed backoff would be 7 ms. -/
theorem request_retry_wait_witness :
    0 < 1 ∧
    (∀ k, k ≤ 0 → ((fun (_ : ℕ) => Response.mk 429 (some 5) Body.emptyText) k).status = 429 ∨
      500 ≤ ((fun (_ : ℕ) => Response.mk 429 (some 5) Body.emptyText) k).status) ∧
    (HttpClient.request ⟨"", [], some ⟨1, Backoff.fixed, some 7⟩⟩
        (fun _ => Response.mk 429 (some 5) Body.emptyText) (fun _ => 0)).waits.get? 0 =
      some 5000 := by
  refine ⟨by omega, fun k _ => Or.inl rfl, ?_⟩
  have h := (request_retry_wait "" [] ⟨1, Backoff.fixed, some 7⟩
    (fun _ => Response.mk 429 (some 5) Body.emptyText) (fun _ => 0) 0
    (by decide) (fun k _ => Or.inl rfl)).1
  rw [h]
  norm_num [waitFor]

/-- Lower half-integer bound through Math.round. -/
theorem jsRound_ge_half (m : ℕ) (x : ℚ) (hx : (m : ℚ) / 2 ≤ x) :
    (m : ℚ) / 2 ≤ ((jsRound x : ℤ) : ℚ) := by
  rcases Nat.even_or_odd m with ⟨a, ha⟩ | ⟨a, ha⟩
  · subst ha
    have h2 : ((a : ℤ) : ℚ) ≤ x + 1 / 2 := by push_cast at hx ⊢; linarith
    have h3 : ((a : ℤ) : ℚ) ≤ ((⌊x + 1 / 2⌋ : ℤ) : ℚ) := by
      exact_mod_cast Int.le_floor.mpr h2
    simp only [jsRound]
    push_cast at h3 ⊢
    linarith
  · subst ha
    have h2 : (((a : ℤ) + 1 : ℤ) : ℚ) ≤ x + 1 / 2 := by push_cast at hx ⊢; linarith
    have h3 : (((a : ℤ) + 1 : ℤ) : ℚ) ≤ ((⌊x + 1 / 2⌋ : ℤ) : ℚ) := by
      exact_mod_cast Int.le_floor.mpr h2
    simp only [jsRound]
    push_cast at h3 ⊢
    linarith

/-- Upper half-integer bound through Math.round. -/
theorem jsRound_le_half (m : ℕ) (x : ℚ) (hx : x < (m : ℚ) / 2) :
    ((jsRound x : ℤ) : ℚ) ≤ (m : ℚ) / 2 := by
  rcases Nat.even_or_odd m with ⟨a, ha⟩ | ⟨a, ha⟩
  · subst ha
    have h2 : ⌊x + 1 / 2⌋ < (a : ℤ) + 1 := by
      apply Int.floor_lt.mpr
      push_cast at hx ⊢
      linarith
    have h3 : ⌊x + 1 / 2⌋ ≤ (a : ℤ) := by omega
    have h4 : ((⌊x + 1 / 2⌋ : ℤ) : ℚ) ≤ ((a : ℤ) : ℚ) := by exact_mod_cast h3
    simp only [jsRound]
    push_cast at h4 ⊢
    linarith
  · subst ha
    have h2 : ⌊x + 1 / 2⌋ < (a : ℤ) + 1 := by
      apply Int.floor_lt.mpr
      push_cast at hx ⊢
      linarith
    have h3 : ⌊x + 1 / 2⌋ ≤ (a : ℤ) := by omega
    have h4 : ((⌊x + 1 / 2⌋ : ℤ) : ℚ) ≤ ((a : ℤ) : ℚ) := by exact_mod_cast h3
    simp only [jsRound]
    push_cast at h4 ⊢
    linarith

/-- C7: for every attempt index i and every jitter draw in the unit
interval, the exponential backoff with baseMs 250 lies in the closed
interval from 250 t 2 power i t 0.75 to 250 t 2 power i t 1.25 after
rounding; the fixed strategy always yields the base delay. -/
theorem nextBackoff_bounds (i a1 a2 : ℕ) (bm : Option ℕ) (jt : ℚ)
    (h0 : 0 ≤ jt) (h1 : jt < 1) :
    ((375 * 2 ^ i : ℚ) / 2 ≤ nextBackoff i ⟨a1, Backoff.exponential, some 250⟩ jt ∧
      nextBackoff i ⟨a1, Backoff.exponential, some 250⟩ jt ≤ (625 * 2 ^ i : ℚ) / 2) ∧
    nextBackoff i ⟨a2, Backoff.fixed, bm⟩ jt = ((bm.getD 250 : ℕ) : ℚ) := by
  refine ⟨?_, rfl⟩
  have hnb : nextBackoff i ⟨a1, Backoff.exponential, some 250⟩ jt =
      ((jsRound ((((250 : ℕ) : ℚ)) * 2 ^ i * (3 / 4 + jt * (1 / 2))) : ℤ) : ℚ) := rfl
  have hpow : (0 : ℚ) < 2 ^ i := by positivity
  have hxlo : (((375 * 2 ^ i : ℕ) : ℚ)) / 2 ≤
      (((250 : ℕ) : ℚ)) * 2 ^ i * (3 / 4 + jt * (1 / 2)) := by
    push_cast
    nlinarith [mul_nonneg hpow.le h0]
  have hxhi : (((250 : ℕ) : ℚ)) * 2 ^ i * (3 / 4 + jt * (1 / 2)) <
      (((625 * 2 ^ i : ℕ) : ℚ)) / 2 := by
    push_cast
    nlinarith [mul_pos hpow (show (0 : ℚ) < 1 - jt by linarith)]
  have hlo := jsRound_ge_half (375 * 2 ^ i) _ hxlo
  have hhi := jsRound_le_half (625 * 2 ^ i) _ hxhi
  rw [hnb]
  constructor
  · refine le_trans (le_of_eq ?_) hlo
    push_cast
    ring
  · refine le_trans hhi (le_of_eq ?_)
    push_cast
    ring

/-- Witness for C7 at attempt index 1 with jitter draw 0. -/
theorem nextBackoff_bounds_witness :
    ((0 : ℚ) ≤ 0 ∧ (0 : ℚ) < 1) ∧
    ((375 * 2 ^ 1 : ℚ) / 2 ≤ nextBackoff 1 ⟨4, Backoff.exponential, some 250⟩ 0 ∧
      nextBackoff 1 ⟨4, Backoff.exponential, some 250⟩ 0 ≤ (625 * 2 ^ 1 : ℚ) / 2) ∧
    nextBackoff 1 ⟨0, Backoff.fixed, none⟩ 0 = ((Option.getD none 250 : ℕ) : ℚ) :=
  ⟨⟨le_refl 0, by norm_num⟩, nextBackoff_bounds 1 4 0 none 0 (le_refl 0) (by norm_num)⟩

/-! Header composition and the scoped-client derivation. -/

/-- Header maps as ordered association lists; names are stored lowercase,
as the Headers class normalizes them. -/
abbrev Headers := List (String × String)

/-- Lookup of the first entry with the given name. -/
def Headers.get? (hs : Headers) (k : String) : Option String :=
  match hs with
  | [] => none
  | (k2, v) :: rest => if k2 = k then some v else Headers.get? rest k

/-- Remove every entry with the given name. -/
def Headers.eraseKey (hs : Headers) (k : String) : Headers :=
  match hs with
  | [] => []
  | (k2, v) :: rest =>
    if k2 = k then Headers.eraseKey rest k
    else (k2, v) :: Headers.eraseKey rest k

/-- Replace any entry with the given name by the new value (the set method
of the Headers class; also the effect of a later key in an object-literal
spread, which wins over an earlier one). -/
def Headers.set (hs : Headers) (k v : String) : Headers :=
  Headers.eraseKey hs k ++ [(k, v)]

/-- Merge a list of updates into a header map, later entries winning. -/
def Headers.setAll (hs : Headers) (upds : List (String × String)) : Headers :=
  upds.foldl (fun acc kv => Headers.set acc kv.1 kv.2) hs

/-- The header composition of HttpClient.request (src/http.ts lines
107-111): the content-type default, then the client default headers, then
the per-call headers, later layers overriding earlier ones. -/
def composeHeaders (optHeaders : List (String × String))
    (initHeaders : List (String × String)) : Headers :=
  Headers.setAll (Headers.setAll [("content-type", "application/json")] optHeaders)
    initHeaders

/-- AuthConfig (src/types/auth.ts): the tagged union of the two credential
variants. -/
inductive AuthConfig where
  | apiKey (key : String)
  | oauth2 (accessToken : String)

/-- The wire header of each credential variant: the API key goes in the
x-api-key header (as in the OpenCloud constructor), the OAuth2 token in the
authorization header as a bearer value (spec section 6 table). -/
def AuthConfig.header : AuthConfig → String × String
  | AuthConfig.apiKey k => ("x-api-key", k)
  | AuthConfig.oauth2 tok => ("authorization", "Bearer " ++ tok)

/-- Modelled from the spec: the header-resolution step applying a per-call
authentication override inside HttpClient.request belongs to the HTTP
client source that is absent from this repository snapshot (only its caller
OpenCloud.withAuth, the AuthConfig declarations and the tests remain).
Spec section 4.1 step 1: if a per-call authentication override is supplied
it fully supersedes any credential header contributed by the client-level
defaults for this call only; the override swaps out the credential channel
entirely, leaving neither a stale x-api-key nor a stale authorization
header, and then transmits the override credential on its own wire header
(section 6). -/
def applyAuthOverride (hs : Headers) : Option AuthConfig → Headers
  | none => hs
  | some a =>
    Headers.set (Headers.eraseKey (Headers.eraseKey hs "x-api-key") "authorization")
      (AuthConfig.header a).1 (AuthConfig.header a).2

/-- OpenCloudConfig (src/index.ts lines 10-24). -/
structure OpenCloudConfig where
  apiKey : Option String
  userAgent : Option String
  baseUrl : Option String
  retry : Option HttpRetry

/-- The HttpOptions built by the OpenCloud constructor (src/index.ts lines
59-75): default base URL and retry policy, an x-api-key default header
exactly when an API key is configured, then the user-agent header. -/
def OpenCloud.httpOptions (config : OpenCloudConfig) : HttpOptions :=
  ⟨config.baseUrl.getD "https://apis.roblox.com",
    (match config.apiKey with
      | some k => [("x-api-key", k)]
      | none => []) ++ [("user-agent", config.userAgent.getD "@relatiohq/opencloud")],
    some (config.retry.getD ⟨4, Backoff.exponential, some 250⟩)⟩

/-- One HttpClient object as JavaScript sees it: an optional prototype link
and the own properties the repository code ever writes on such objects. -/
structure HttpObjData where
  protoIdx : Option ℕ
  ownOptions : Option HttpOptions
  ownAuthOverride : Option AuthConfig

/-- The object store; the index of an entry is the object identity. -/
structure Heap where
  objs : List HttpObjData

/-- new HttpClient(options) inside the OpenCloud constructor: allocates a
fresh object with own options and no override. -/
def Heap.newClient (h : Heap) (options : HttpOptions) : Heap × ℕ :=
  (⟨h.objs ++ [⟨none, some options, none⟩]⟩, h.objs.length)

/-- OpenCloud.withAuth (src/index.ts lines 113-123): Object.create makes a
fresh object delegating to the parent client object, and the authOverride
assignment writes an own property of that fresh object only; no property
of the parent is written. -/
def Heap.withAuth (h : Heap) (parent : ℕ) (auth : AuthConfig) : Heap × ℕ :=
  (⟨h.objs ++ [⟨some parent, none, some auth⟩]⟩, h.objs.length)

/-- Prototype-chain property lookup: the own property when present, else
the prototype chain is consulted.  The fuel only bounds the walk; prototype
links produced by the constructors above always point to earlier
allocations, so fuel index + 1 suffices and the guard never cuts a real
chain. -/
def walkProp {α : Type} (objs : List HttpObjData) (f : HttpObjData → Option α) :
    ℕ → ℕ → Option α
  | 0, _ => none
  | fuel + 1, i =>
    match objs[i]? with
    | none => none
    | some o =>
      match f o with
      | some v => some v
      | none =>
        match o.protoIdx with
        | some p => if p < i then walkProp objs f fuel p else none
        | none => none

/-- The options property seen from client object i (own or inherited). -/
def Heap.resolvedOptions (h : Heap) (i : ℕ) : Option HttpOptions :=
  walkProp h.objs (fun o => o.ownOptions) (i + 1) i

/-- The authOverride property seen from client object i (own or
inherited). -/
def Heap.resolvedAuth (h : Heap) (i : ℕ) : Option AuthConfig :=
  walkProp h.objs (fun o => o.ownAuthOverride) (i + 1) i

/-- The effective headers of a request issued through client object i with
the given per-call headers: the layering of src/http.ts lines 107-111
followed by the application of the per-call authentication override. -/
def Heap.effectiveHeaders (h : Heap) (i : ℕ) (initHeaders : List (String × String)) :
    Headers :=
  match h.resolvedOptions i with
  | none => []
  | some opts =>
    applyAuthOverride (composeHeaders opts.headers initHeaders) (h.resolvedAuth i)

/-! Lemmas about header lookup. -/

theorem Headers.get?_set_self (hs : Headers) (k v : String) :
    Headers.get? (Headers.set hs k v) k = some v := by
  induction hs with
  | nil => simp [Headers.set, Headers.eraseKey, Headers.get?]
  | cons kv rest ih =>
    obtain ⟨k2, v2⟩ := kv
    by_cases hk : k2 = k
    · simpa [Headers.set, Headers.eraseKey, hk] using ih
    · simpa [Headers.set, Headers.eraseKey, Headers.get?, hk] using ih

theorem Headers.get?_set_ne (hs : Headers) (k k2 v : String) (hne : k ≠ k2) :
    Headers.get? (Headers.set hs k2 v) k = Headers.get? hs k := by
  induction hs with
  | nil => simp [Headers.set, Headers.eraseKey, Headers.get?, hne.symm]
  | cons kv rest ih =>
    obtain ⟨k3, v3⟩ := kv
    by_cases hk : k3 = k2
    · subst hk
      simpa [Headers.set, Headers.eraseKey, Headers.get?, hne.symm] using ih
    · by_cases hk3 : k3 = k
      · subst hk3
        simp [Headers.set, Headers.eraseKey, Headers.get?, hk]
      · simpa [Headers.set, Headers.eraseKey, Headers.get?, hk, hk3] using ih

theorem Headers.get?_eraseKey_self (hs : Headers) (k : String) :
    Headers.get? (Headers.eraseKey hs k) k = none := by
  induction hs with
  | nil => simp [Headers.eraseKey, Headers.get?]
  | cons kv rest ih =>
    obtain ⟨k2, v2⟩ := kv
    by_cases hk : k2 = k
    · simpa [Headers.eraseKey, hk] using ih
    · simpa [Headers.eraseKey, Headers.get?, hk] using ih

theorem Headers.get?_eraseKey_ne (hs : Headers) (k k2 : String) (hne : k ≠ k2) :
    Headers.get? (Headers.eraseKey hs k2) k = Headers.get? hs k := by
  induction hs with
  | nil => simp [Headers.eraseKey]
  | cons kv rest ih =>
    obtain ⟨k3, v3⟩ := kv
    by_cases hk : k3 = k2
    · subst hk
      simpa [Headers.eraseKey, Headers.get?, hne.symm] using ih
    · by_cases hk3 : k3 = k
      · subst hk3
        simp [Headers.eraseKey, Headers.get?, hk]
      · simpa [Headers.eraseKey, Headers.get?, hk, hk3] using ih

/-- Prototype-chain lookup only depends on the store entries up to the
start index. -/
theorem walkProp_frame {α : Type} (objs1 objs2 : List HttpObjData)
    (f : HttpObjData → Option α) :
    ∀ fuel i, (∀ j, j ≤ i → objs2[j]? = objs1[j]?) →
      walkProp objs2 f fuel i = walkProp objs1 f fuel i := by
  intro fuel
  induction fuel with
  | zero =>
    intro i _
    rfl
  | succ n ih =>
    intro i hagree
    simp only [walkProp]
    rw [hagree i (Nat.le_refl i)]
    split
    · rfl
    · split
      · rfl
      · split
        · rename_i o heq hfo p hproto
          by_cases hpi : p < i
          · rw [if_pos hpi, if_pos hpi]
            exact ih p (fun j hj => hagree j (hj.trans hpi.le))
          · rw [if_neg hpi, if_neg hpi]
        · rfl

/-- An object whose own authOverride property is set resolves it without
consulting the prototype chain. -/
theorem resolvedAuth_own (hh : Heap) (i : ℕ) (o : HttpObjData) (v : AuthConfig)
    (hobj : hh.objs[i]? = some o) (hv : o.ownAuthOverride = some v) :
    hh.resolvedAuth i = some v := by
  simp only [Heap.resolvedAuth, walkProp]
  rw [hobj]
  simp [hv]

/-- C1 (spec-modelled override contract): on a client configured with a
default API-key credential, a request issued through a scoped client
created with a per-call OAuth2 credential override resolves effective
headers that carry the bearer authorization header for the credential
channel and omit the default x-api-key header, whatever per-call headers
accompany the request. -/
theorem scoped_oauth2_override_headers (key token : String) (ua : Option String)
    (init : List (String × String)) :
    Headers.get?
      (Heap.effectiveHeaders
        ((((Heap.mk []).newClient (OpenCloud.httpOptions ⟨some key, ua, none, none⟩)).1.withAuth
          ((Heap.mk []).newClient (OpenCloud.httpOptions ⟨some key, ua, none, none⟩)).2
          (AuthConfig.oauth2 token)).1)
        ((((Heap.mk []).newClient (OpenCloud.httpOptions ⟨some key, ua, none, none⟩)).1.withAuth
          ((Heap.mk []).newClient (OpenCloud.httpOptions ⟨some key, ua, none, none⟩)).2
          (AuthConfig.oauth2 token)).2)
        init) "authorization" = some ("Bearer " ++ token) ∧
    Headers.get?
      (Heap.effectiveHeaders
        ((((Heap.mk []).newClient (OpenCloud.httpOptions ⟨some key, ua, none, none⟩)).1.withAuth
          ((Heap.mk []).newClient (OpenCloud.httpOptions ⟨some key, ua, none, none⟩)).2
          (AuthConfig.oauth2 token)).1)
        ((((Heap.mk []).newClient (OpenCloud.httpOptions ⟨some key, ua, none, none⟩)).1.withAuth
          ((Heap.mk []).newClient (OpenCloud.httpOptions ⟨some key, ua, none, none⟩)).2
          (AuthConfig.oauth2 token)).2)
        init) "x-api-key" = none := by
  have heff : Heap.effectiveHeaders
      ((((Heap.mk []).newClient (OpenCloud.httpOptions ⟨some key, ua, none, none⟩)).1.withAuth
        ((Heap.mk []).newClient (OpenCloud.httpOptions ⟨some key, ua, none, none⟩)).2
        (AuthConfig.oauth2 token)).1)
      ((((Heap.mk []).newClient (OpenCloud.httpOptions ⟨some key, ua, none, none⟩)).1.withAuth
        ((Heap.mk []).newClient (OpenCloud.httpOptions ⟨some key, ua, none, none⟩)).2
        (AuthConfig.oauth2 token)).2)
      init =
      Headers.set
        (Headers.eraseKey
          (Headers.eraseKey
            (composeHeaders (OpenCloud.httpOptions ⟨some key, ua, none, none⟩).headers init)
            "x-api-key")
          "authorization")
        "authorization" ("Bearer " ++ token) := rfl
  rw [heff]
  constructor
  · exact Headers.get?_set_self _ _ _
  · rw [Headers.get?_set_ne _ _ _ _ (by decide)]
    rw [Headers.get?_eraseKey_ne _ _ _ (by decide)]
    exact Headers.get?_eraseKey_self _ _

/-- C9: deriving scoped clients mutates no shared state: after two withAuth
derivations from the same parent, the parent object is unchanged in the
store, the effective headers of a request through the parent are exactly
what they were before, each scoped client resolves its own credential
override, and the two scoped clients are distinct objects. -/
theorem withAuth_parent_unchanged (h : Heap) (p : ℕ) (hp : p < h.objs.length)
    (a1 a2 : AuthConfig) (init : List (String × String)) :
    (((h.withAuth p a1).1.withAuth p a2).1.objs)[p]? = (h.objs)[p]? ∧
    ((h.withAuth p a1).1.withAuth p a2).1.effectiveHeaders p init =
      h.effectiveHeaders p init ∧
    ((h.withAuth p a1).1.withAuth p a2).1.resolvedAuth (h.withAuth p a1).2 = some a1 ∧
    ((h.withAuth p a1).1.withAuth p a2).1.resolvedAuth
      ((h.withAuth p a1).1.withAuth p a2).2 = some a2 ∧
    (h.withAuth p a1).2 ≠ ((h.withAuth p a1).1.withAuth p a2).2 := by
  have hagree : ∀ j, j ≤ p →
      ((((h.withAuth p a1).1.withAuth p a2).1.objs)[j]? = (h.objs)[j]?) := by
    intro j hj
    show ((h.objs ++ [(⟨some p, none, some a1⟩ : HttpObjData)])
        ++ [(⟨some p, none, some a2⟩ : HttpObjData)])[j]? = (h.objs)[j]?
    rw [List.getElem?_append_left
      (by simp only [List.length_append, List.length_singleton]; omega)]
    rw [List.getElem?_append_left (by omega)]
  refine ⟨hagree p (Nat.le_refl p), ?_, ?_, ?_, ?_⟩
  · have hopts : ((h.withAuth p a1).1.withAuth p a2).1.resolvedOptions p =
        h.resolvedOptions p :=
      walkProp_frame h.objs _ _ (p + 1) p hagree
    have hauth : ((h.withAuth p a1).1.withAuth p a2).1.resolvedAuth p =
        h.resolvedAuth p :=
      walkProp_frame h.objs _ _ (p + 1) p hagree
    simp only [Heap.effectiveHeaders, hopts, hauth]
  · refine resolvedAuth_own _ _ (⟨some p, none, some a1⟩ : HttpObjData) a1 ?_ rfl
    show ((h.objs ++ [(⟨some p, none, some a1⟩ : HttpObjData)])
        ++ [(⟨some p, none, some a2⟩ : HttpObjData)])[h.objs.length]? = _
    rw [List.getElem?_append_left
      (by simp only [List.length_append, List.length_singleton]; omega)]
    exact List.getElem?_concat_length _ _
  · refine resolvedAuth_own _ _ (⟨some p, none, some a2⟩ : HttpObjData) a2 ?_ rfl
    show ((h.objs ++ [(⟨some p, none, some a1⟩ : HttpObjData)])
        ++ [(⟨some p, none, some a2⟩ : HttpObjData)])[(h.objs
          ++ [(⟨some p, none, some a1⟩ : HttpObjData)]).length]? = _
    exact List.getElem?_concat_length _ _
  · show h.objs.length ≠ (h.objs ++ [(⟨some p, none, some a1⟩ : HttpObjData)]).length
    simp

/-- Witness for C9 on a freshly constructed single-client heap and two
concrete overrides. -/
theorem withAuth_parent_unchanged_witness :
    0 < ((Heap.mk []).newClient ⟨"", [], none⟩).1.objs.length ∧
    ((((((Heap.mk []).newClient ⟨"", [], none⟩).1.withAuth 0
        (AuthConfig.oauth2 "t1")).1.withAuth 0 (AuthConfig.apiKey "k2")).1.objs)[0]? =
      (((Heap.mk []).newClient ⟨"", [], none⟩).1.objs)[0]?) ∧
    ((((((Heap.mk []).newClient ⟨"", [], none⟩).1.withAuth 0
        (AuthConfig.oauth2 "t1")).1.withAuth 0 (AuthConfig.apiKey "k2")).1.resolvedAuth
      (((Heap.mk []).newClient ⟨"", [], none⟩).1.withAuth 0 (AuthConfig.oauth2 "t1")).2) =
      some (AuthConfig.oauth2 "t1")) ∧
    ((((((Heap.mk []).newClient ⟨"", [], none⟩).1.withAuth 0
        (AuthConfig.oauth2 "t1")).1.withAuth 0 (AuthConfig.apiKey "k2")).1.resolvedAuth
      (((((Heap.mk []).newClient ⟨"", [], none⟩).1.withAuth 0
        (AuthConfig.oauth2 "t1")).1.withAuth 0 (AuthConfig.apiKey "k2")).2)) =
      some (AuthConfig.apiKey "k2")) := by
  have h := withAuth_parent_unchanged ((Heap.mk []).newClient ⟨"", [], none⟩).1 0
    (by simp [Heap.newClient]) (AuthConfig.oauth2 "t1") (AuthConfig.apiKey "k2") []
  exact ⟨by simp [Heap.newClient], h.1, h.2.2.1, h.2.2.2.1⟩


/-- Witness for the amended C5: a 204 whose body is non-empty still returns
the empty payload after one invocation. -/
theorem request_2xx_success_witness :
    (200 ≤ 204 ∧ 204 < 300) ∧
    HttpClient.request ⟨"", [], some ⟨4, Backoff.exponential, some 250⟩⟩
        (fun _ => Response.mk 204 none (Body.ofJson (Json.str "ignored"))) (fun _ => 0) =
      ⟨Outcome.ok none, 1, []⟩ := by
  refine ⟨by omega, ?_⟩
  exact (request_2xx_success "" [] ⟨4, Backoff.exponential, some 250⟩
    (fun _ => Response.mk 204 none (Body.ofJson (Json.str "ignored"))) (fun _ => 0)
    (by decide)).2.1 rfl

end OC

